import Mathlib

/-!
Verification of the AMM pricing engine (`src/utils/amm_pricing.py`), the
step-rounding helper (`src/nonkyc_client/pricing.py`) and the triangular
arbitrage runner (`run_cosa_arb.py`) of the nonkycbot repository.

Python `Decimal` values are modelled as exact rationals (`ℚ`); `Decimal`
division in the source is modelled as exact rational division.  Functions
that raise `ValueError` in the source are modelled with `Except AmmError`.
-/

/-- Errors raised by the pure pricing engine, one constructor per distinct
`ValueError` in `amm_pricing.py`. -/
inductive AmmError where
  | invalidReserves
  | exceedsReserve
  | unknownToken
deriving DecidableEq, Repr

/-- Embedding of `calculate_constant_product_output` from
`src/utils/amm_pricing.py`: `amount_in <= 0` returns 0; non-positive
reserves raise `ValueError("Pool reserves must be positive")`; otherwise
`amount_in_with_fee * reserve_out / (reserve_in + amount_in_with_fee)`
with `amount_in_with_fee = amount_in * (1 - fee_rate)`. -/
def calculate_constant_product_output (amount_in reserve_in reserve_out fee_rate : ℚ) :
    Except AmmError ℚ :=
  if amount_in ≤ 0 then Except.ok 0
  else if reserve_in ≤ 0 ∨ reserve_out ≤ 0 then Except.error AmmError.invalidReserves
  else
    let amount_in_with_fee := amount_in * (1 - fee_rate)
    Except.ok (amount_in_with_fee * reserve_out / (reserve_in + amount_in_with_fee))

/-- Embedding of `calculate_constant_product_input` from
`src/utils/amm_pricing.py`: `amount_out <= 0` returns 0; then
`amount_out >= reserve_out` raises `ValueError("Cannot swap more than pool
reserve")`; then non-positive reserves raise; otherwise
`reserve_in * amount_out / ((reserve_out - amount_out) * (1 - fee_rate))`. -/
def calculate_constant_product_input (amount_out reserve_in reserve_out fee_rate : ℚ) :
    Except AmmError ℚ :=
  if amount_out ≤ 0 then Except.ok 0
  else if reserve_out ≤ amount_out then Except.error AmmError.exceedsReserve
  else if reserve_in ≤ 0 ∨ reserve_out ≤ 0 then Except.error AmmError.invalidReserves
  else
    Except.ok (reserve_in * amount_out / ((reserve_out - amount_out) * (1 - fee_rate)))

/-- Embedding of the `PoolReserves` NamedTuple. -/
structure PoolReserves where
  reserve_token_a : ℚ
  reserve_token_b : ℚ
  token_a_symbol : String
  token_b_symbol : String
deriving DecidableEq, Repr

/-- Embedding of the `SwapQuote` NamedTuple. -/
structure SwapQuote where
  amount_in : ℚ
  amount_out : ℚ
  effective_price : ℚ
  price_impact : ℚ
  fee_amount : ℚ
deriving DecidableEq, Repr

/-- Direction selection of `get_swap_quote`: the `if/elif/else` over the
pool's two symbols (unknown token raises `ValueError("Token ... not
found")`). -/
def select_reserves (reserves : PoolReserves) (token_in : String) :
    Except AmmError (ℚ × ℚ) :=
  if token_in = reserves.token_a_symbol then
    Except.ok (reserves.reserve_token_a, reserves.reserve_token_b)
  else if token_in = reserves.token_b_symbol then
    Except.ok (reserves.reserve_token_b, reserves.reserve_token_a)
  else Except.error AmmError.unknownToken

/-- Embedding of `get_swap_quote` from `src/utils/amm_pricing.py`:
direction selection by symbol, output via
`calculate_constant_product_output`, `effective_price = amount_out /
amount_in` when `amount_in > 0` else 0, `spot_price = reserve_out /
reserve_in`, `price_impact = |effective_price - spot_price| / spot_price *
100` when `spot_price > 0` else 0, `fee_amount = amount_in * fee_rate`. -/
def get_swap_quote (amount_in : ℚ) (reserves : PoolReserves) (token_in : String)
    (fee_rate : ℚ) : Except AmmError SwapQuote :=
  match select_reserves reserves token_in with
  | Except.error e => Except.error e
  | Except.ok (reserve_in, reserve_out) =>
    match calculate_constant_product_output amount_in reserve_in reserve_out fee_rate with
    | Except.error e => Except.error e
    | Except.ok amount_out =>
      let effective_price := if 0 < amount_in then amount_out / amount_in else 0
      let spot_price := reserve_out / reserve_in
      let price_impact :=
        if 0 < spot_price then |effective_price - spot_price| / spot_price * 100 else 0
      let fee_amount := amount_in * fee_rate
      Except.ok ⟨amount_in, amount_out, effective_price, price_impact, fee_amount⟩

/-- Embedding of `Decimal.to_integral_value(rounding=ROUND_UP)`: rounding
away from zero (ceiling for non-negative values, floor for negative ones). -/
def to_integral_round_up (x : ℚ) : ℤ :=
  if 0 ≤ x then ⌈x⌉ else ⌊x⌋

/-- Embedding of `round_up_to_step` from `src/nonkyc_client/pricing.py`:
`step <= 0` returns `quantity` unchanged, otherwise
`(quantity / step).to_integral_value(rounding=ROUND_UP) * step`. -/
def round_up_to_step (quantity step : ℚ) : ℚ :=
  if step ≤ 0 then quantity
  else (to_integral_round_up (quantity / step) : ℚ) * step

/-- Embedding of the cycle simulation in `run_arbitrage_bot`
(`run_cosa_arb.py`): three multiplicative hops, `(1 - fee_rate)` applied
after each hop. -/
def simulate_cycle (start_amount rate1 rate2 rate3 fee_rate : ℚ) : ℚ :=
  let a1 := start_amount * rate1 * (1 - fee_rate)
  let a2 := a1 * rate2 * (1 - fee_rate)
  a2 * rate3 * (1 - fee_rate)

/-- Embedding of `profit_ratio = (amount - start_amount) / start_amount`
computed by `run_arbitrage_bot` after the cycle simulation. -/
def cycle_profit_ratio (start_amount rate1 rate2 rate3 fee_rate : ℚ) : ℚ :=
  (simulate_cycle start_amount rate1 rate2 rate3 fee_rate - start_amount) / start_amount

/-- Embedding of the branch condition `profit_ratio >= min_profit` in
`run_arbitrage_bot`: the opportunity (execute-decision) branch is taken
exactly when the ratio reaches the threshold. -/
def opportunity_found (profit_ratio min_profit : ℚ) : Bool :=
  decide (min_profit ≤ profit_ratio)

/-- What the runner actually does at the decision point in
`run_arbitrage_bot`: inside the profitable branch it blocks on
`input("Execute arbitrage? (yes/no): ")` before any order is placed;
otherwise it skips the cycle. -/
inductive RunnerAction where
  | promptConfirm
  | skipCycle
deriving DecidableEq, Repr

/-- Embedding of the decision point of `run_arbitrage_bot`: the profitable
branch asks for interactive confirmation, the other branch skips. -/
def runner_decision (profit_ratio min_profit : ℚ) : RunnerAction :=
  if min_profit ≤ profit_ratio then RunnerAction.promptConfirm else RunnerAction.skipCycle

/-- Embedding of `calculate_conversion_rates` from `run_cosa_arb.py`:
`step1 = prices[pair_ab]`, `step2 = 1 / prices[pair_bc]`,
`step3 = prices[pair_ac]`. -/
def calculate_conversion_rates (price_ab price_bc price_ac : ℚ) : ℚ × ℚ × ℚ :=
  (price_ab, 1 / price_bc, price_ac)

/-- Helper: a non-positive input short-circuits to `0` before the reserves
are inspected. -/
lemma output_eq_zero (a r_in r_out f : ℚ) (ha : a ≤ 0) :
    calculate_constant_product_output a r_in r_out f = Except.ok 0 := by
  simp [calculate_constant_product_output, ha]

/-- Helper: the successful branch of `calculate_constant_product_output`. -/
lemma output_eq_ok (a r_in r_out f : ℚ) (ha : 0 < a) (hin : 0 < r_in) (hout : 0 < r_out) :
    calculate_constant_product_output a r_in r_out f =
      Except.ok (a * (1 - f) * r_out / (r_in + a * (1 - f))) := by
  simp [calculate_constant_product_output, not_le.mpr ha, not_le.mpr hin, not_le.mpr hout]

/-- Helper: the successful branch of `calculate_constant_product_input`. -/
lemma input_eq_ok (y r_in r_out f : ℚ) (hy : 0 < y) (hyr : y < r_out)
    (hin : 0 < r_in) (hout : 0 < r_out) :
    calculate_constant_product_input y r_in r_out f =
      Except.ok (r_in * y / ((r_out - y) * (1 - f))) := by
  simp [calculate_constant_product_input, not_le.mpr hy, not_le.mpr hyr,
    not_le.mpr hin, not_le.mpr hout]

/-- Helper: the swap output value is strictly below the output reserve. -/
lemma output_val_lt_reserve (a r_in r_out f : ℚ) (ha : 0 < a)
    (hin : 0 < r_in) (hout : 0 < r_out) (hf1 : f < 1) :
    a * (1 - f) * r_out / (r_in + a * (1 - f)) < r_out := by
  have hfe : (0:ℚ) < 1 - f := by linarith
  have hden : (0:ℚ) < r_in + a * (1 - f) := by nlinarith
  rw [div_lt_iff₀ hden]
  nlinarith [mul_pos hout hin]

/-- Helper: the swap output value is positive for a positive input. -/
lemma output_val_pos (a r_in r_out f : ℚ) (ha : 0 < a)
    (hin : 0 < r_in) (hout : 0 < r_out) (hf1 : f < 1) :
    0 < a * (1 - f) * r_out / (r_in + a * (1 - f)) := by
  have hfe : (0:ℚ) < 1 - f := by linarith
  have hden : (0:ℚ) < r_in + a * (1 - f) := by nlinarith
  exact div_pos (by nlinarith [mul_pos (mul_pos ha hfe) hout]) hden

/-- C1: for positive reserves and any fee rate,
`calculate_constant_product_output` returns 0 when `amount_in ≤ 0` and
otherwise returns exactly
`amount_in * (1 - fee_rate) * reserve_out / (reserve_in + amount_in * (1 - fee_rate))`. -/
theorem constant_product_output_formula (a r_in r_out f : ℚ)
    (hin : 0 < r_in) (hout : 0 < r_out) :
    (a ≤ 0 → calculate_constant_product_output a r_in r_out f = Except.ok 0) ∧
    (0 < a → calculate_constant_product_output a r_in r_out f =
      Except.ok (a * (1 - f) * r_out / (r_in + a * (1 - f)))) :=
  ⟨fun ha => output_eq_zero a r_in r_out f ha,
   fun ha => output_eq_ok a r_in r_out f ha hin hout⟩

/-- C1 witness: concrete evaluation of both branches at the pool
(1000, 2000) with the default 0.3% fee. -/
theorem constant_product_output_formula_witness :
    (0:ℚ) < 1000 ∧ (0:ℚ) < 2000 ∧
    calculate_constant_product_output 100 1000 2000 (3/1000) =
      Except.ok (100 * (1 - 3/1000) * 2000 / (1000 + 100 * (1 - 3/1000))) :=
  ⟨by norm_num, by norm_num,
    (constant_product_output_formula 100 1000 2000 (3/1000)
      (by norm_num) (by norm_num)).2 (by norm_num)⟩

/-- C6: a positive requested output at or above the reserve fails with
`ExceedsReserve` (for every `reserve_in` and fee rate), and a non-positive
requested output returns 0 instead of failing. -/
theorem constant_product_input_exceeds_reserve (y r_in r_out f : ℚ) :
    (0 < y → r_out ≤ y →
      calculate_constant_product_input y r_in r_out f =
        Except.error AmmError.exceedsReserve) ∧
    (y ≤ 0 → calculate_constant_product_input y r_in r_out f = Except.ok 0) := by
  constructor
  · intro hy hr
    simp [calculate_constant_product_input, not_le.mpr hy, hr]
  · intro hy
    simp [calculate_constant_product_input, hy]

/-- C6 witness: requesting 2001 against a reserve of 2000 fails with
`ExceedsReserve`, and requesting 0 returns 0. -/
theorem constant_product_input_exceeds_reserve_witness :
    ((0:ℚ) < 2001 ∧
      calculate_constant_product_input 2001 1000 2000 (3/1000) =
        Except.error AmmError.exceedsReserve) ∧
    ((0:ℚ) ≤ 0 ∧
      calculate_constant_product_input 0 1000 2000 (3/1000) = Except.ok 0) :=
  ⟨⟨by norm_num,
    (constant_product_input_exceeds_reserve 2001 1000 2000 (3/1000)).1
      (by norm_num) (by norm_num)⟩,
   ⟨le_refl 0,
    (constant_product_input_exceeds_reserve 0 1000 2000 (3/1000)).2 (by norm_num)⟩⟩

/-- C8 counterexample: the claim quantifies over every `amount_in`, but
`calculate_constant_product_output` checks `amount_in <= 0` first, so at
`amount_in = 0` with `reserve_in = -1` it returns 0 instead of failing with
`InvalidReserves`. -/
theorem output_invalid_reserves_counterexample :
    calculate_constant_product_output 0 (-1) 2000 (3/1000) = Except.ok 0 ∧
    calculate_constant_product_output 0 (-1) 2000 (3/1000) ≠
      Except.error AmmError.invalidReserves := by
  constructor
  · norm_num [calculate_constant_product_output]
  · norm_num [calculate_constant_product_output]
    exact fun h => Except.noConfusion h

/-- C8 amended: for every `amount_in > 0` and fee rate, non-positive
reserves make `calculate_constant_product_output` fail with
`InvalidReserves`; when `amount_in ≤ 0` the function returns 0 before the
reserves are ever inspected. -/
theorem output_invalid_reserves (a r_in r_out f : ℚ)
    (ha : 0 < a) (hr : r_in ≤ 0 ∨ r_out ≤ 0) :
    calculate_constant_product_output a r_in r_out f =
      Except.error AmmError.invalidReserves := by
  simp [calculate_constant_product_output, not_le.mpr ha, hr]

/-- C8 amended witness: a positive input against a negative input-reserve
fails with `InvalidReserves`. -/
theorem output_invalid_reserves_witness :
    (0:ℚ) < 100 ∧ ((-1:ℚ) ≤ 0 ∨ (2000:ℚ) ≤ 0) ∧
    calculate_constant_product_output 100 (-1) 2000 (3/1000) =
      Except.error AmmError.invalidReserves :=
  ⟨by norm_num, Or.inl (by norm_num),
    output_invalid_reserves 100 (-1) 2000 (3/1000) (by norm_num) (Or.inl (by norm_num))⟩

/-- C4: for a positive input, positive reserves and a fee rate in `[0, 1)`,
the swap output is strictly below the zero-slippage amount
`amount_in * reserve_out / reserve_in` and strictly below `reserve_out`. -/
theorem constant_product_output_bounds (a r_in r_out f : ℚ)
    (ha : 0 < a) (hin : 0 < r_in) (hout : 0 < r_out) (hf0 : 0 ≤ f) (hf1 : f < 1) :
    ∃ out, calculate_constant_product_output a r_in r_out f = Except.ok out ∧
      out < a * r_out / r_in ∧ out < r_out := by
  have hfe : (0:ℚ) < 1 - f := by linarith
  have hden : (0:ℚ) < r_in + a * (1 - f) := by nlinarith
  refine ⟨_, output_eq_ok a r_in r_out f ha hin hout, ?_,
    output_val_lt_reserve a r_in r_out f ha hin hout hf1⟩
  rw [div_lt_div_iff₀ hden hin]
  nlinarith [mul_pos (mul_pos (mul_pos ha ha) hfe) hout,
    mul_nonneg (mul_nonneg (mul_nonneg ha.le hout.le) hin.le) hf0]

/-- C4 witness: concrete bounds at the pool (1000, 2000) with the default
0.3% fee and input 100. -/
theorem constant_product_output_bounds_witness :
    (0:ℚ) < 100 ∧
    ∃ out, calculate_constant_product_output 100 1000 2000 (3/1000) = Except.ok out ∧
      out < 100 * 2000 / 1000 ∧ out < 2000 :=
  ⟨by norm_num,
    constant_product_output_bounds 100 1000 2000 (3/1000)
      (by norm_num) (by norm_num) (by norm_num) (by norm_num) (by norm_num)⟩

/-- C2: round-trip law.  For positive reserves, a fee rate in `[0, 0.01]`
and `0 < y < reserve_out`, feeding the required input for `y` back through
the output formula gives back exactly `y`; and for any `0 < a` the swap
output lies below `reserve_out` and feeding it through the input formula
gives back exactly `a` — the two functions are exact algebraic inverses
(exact equality is within every tolerance). -/
theorem swap_round_trip (r_in r_out f y a : ℚ)
    (hin : 0 < r_in) (hout : 0 < r_out) (hf0 : 0 ≤ f) (hf1 : f ≤ 1/100)
    (hy0 : 0 < y) (hyr : y < r_out) (ha : 0 < a) :
    (∃ x, calculate_constant_product_input y r_in r_out f = Except.ok x ∧
       calculate_constant_product_output x r_in r_out f = Except.ok y) ∧
    (∃ z, calculate_constant_product_output a r_in r_out f = Except.ok z ∧ z < r_out ∧
       calculate_constant_product_input z r_in r_out f = Except.ok a) := by
  have hfe : (0:ℚ) < 1 - f := by linarith
  have hry : (0:ℚ) < r_out - y := by linarith
  have hflt : f < 1 := by linarith
  constructor
  · refine ⟨_, input_eq_ok y r_in r_out f hy0 hyr hin hout, ?_⟩
    have hx : 0 < r_in * y / ((r_out - y) * (1 - f)) :=
      div_pos (mul_pos hin hy0) (mul_pos hry hfe)
    rw [output_eq_ok _ r_in r_out f hx hin hout]
    have hx1 : r_in * y / ((r_out - y) * (1 - f)) * (1 - f) = r_in * y / (r_out - y) := by
      field_simp
      ring
    have hden : r_in + r_in * y / (r_out - y) = r_in * r_out / (r_out - y) := by
      field_simp
      ring
    have hval : r_in * y / ((r_out - y) * (1 - f)) * (1 - f) * r_out /
        (r_in + r_in * y / ((r_out - y) * (1 - f)) * (1 - f)) = y := by
      rw [hx1, hden]
      rw [div_mul_eq_mul_div, div_div_div_cancel_right₀ hry.ne']
      field_simp
      ring
    rw [hval]
  · refine ⟨_, output_eq_ok a r_in r_out f ha hin hout,
      output_val_lt_reserve a r_in r_out f ha hin hout hflt, ?_⟩
    have hden : (0:ℚ) < r_in + a * (1 - f) := by nlinarith
    have hz : 0 < a * (1 - f) * r_out / (r_in + a * (1 - f)) :=
      output_val_pos a r_in r_out f ha hin hout hflt
    have hzr : a * (1 - f) * r_out / (r_in + a * (1 - f)) < r_out :=
      output_val_lt_reserve a r_in r_out f ha hin hout hflt
    rw [input_eq_ok _ r_in r_out f hz hzr hin hout]
    have h1 : r_out - a * (1 - f) * r_out / (r_in + a * (1 - f)) =
        r_in * r_out / (r_in + a * (1 - f)) := by
      field_simp
      ring
    have hval : r_in * (a * (1 - f) * r_out / (r_in + a * (1 - f))) /
        ((r_out - a * (1 - f) * r_out / (r_in + a * (1 - f))) * (1 - f)) = a := by
      rw [h1]
      field_simp
      ring
    rw [hval]

/-- C2 witness: round trip at the pool (1000, 2000) with the default 0.3%
fee, target output 100 and input 100. -/
theorem swap_round_trip_witness :
    ((0:ℚ) < 100 ∧ (100:ℚ) < 2000 ∧ (0:ℚ) ≤ 3/1000 ∧ (3/1000:ℚ) ≤ 1/100) ∧
    (∃ x, calculate_constant_product_input 100 1000 2000 (3/1000) = Except.ok x ∧
       calculate_constant_product_output x 1000 2000 (3/1000) = Except.ok 100) ∧
    (∃ z, calculate_constant_product_output 100 1000 2000 (3/1000) = Except.ok z ∧
       z < 2000 ∧
       calculate_constant_product_input z 1000 2000 (3/1000) = Except.ok 100) :=
  ⟨⟨by norm_num, by norm_num, by norm_num, by norm_num⟩,
    swap_round_trip 1000 2000 (3/1000) 100 100 (by norm_num) (by norm_num)
      (by norm_num) (by norm_num) (by norm_num) (by norm_num) (by norm_num)⟩

/-- Helper: value of `get_swap_quote` for a positive input once the
direction selection resolves to a pair of positive reserves. -/
lemma get_swap_quote_eq_ok (a f : ℚ) (p : PoolReserves) (tok : String) (r_in r_out : ℚ)
    (hsel : select_reserves p tok = Except.ok (r_in, r_out))
    (ha : 0 < a) (hin : 0 < r_in) (hout : 0 < r_out) :
    get_swap_quote a p tok f = Except.ok
      ⟨a, a * (1 - f) * r_out / (r_in + a * (1 - f)),
        a * (1 - f) * r_out / (r_in + a * (1 - f)) / a,
        |a * (1 - f) * r_out / (r_in + a * (1 - f)) / a - r_out / r_in| /
          (r_out / r_in) * 100,
        a * f⟩ := by
  have hspot : (0:ℚ) < r_out / r_in := div_pos hout hin
  simp only [get_swap_quote, hsel, output_eq_ok a r_in r_out f ha hin hout]
  simp [ha, hspot]

/-- Helper: the effective price of a positive-input swap in closed form. -/
lemma eff_price_eq (a r_in r_out f : ℚ) (ha : 0 < a) :
    a * (1 - f) * r_out / (r_in + a * (1 - f)) / a =
      (1 - f) * r_out / (r_in + a * (1 - f)) := by
  rw [div_div, mul_comm (r_in + a * (1 - f)) a, mul_assoc,
    mul_div_mul_left _ _ ha.ne']

/-- Helper: the effective price is strictly below the spot price. -/
lemma eff_price_lt_spot (a r_in r_out f : ℚ) (ha : 0 < a)
    (hin : 0 < r_in) (hout : 0 < r_out) (hf0 : 0 ≤ f) (hf1 : f < 1) :
    (1 - f) * r_out / (r_in + a * (1 - f)) < r_out / r_in := by
  have hfe : (0:ℚ) < 1 - f := by linarith
  have hden : (0:ℚ) < r_in + a * (1 - f) := by nlinarith
  rw [div_lt_div_iff₀ hden hin]
  nlinarith [mul_pos (mul_pos ha hfe) hout,
    mul_nonneg (mul_nonneg hf0 hin.le) hout.le]

/-- C5: for a fixed pool with positive reserves, fixed matching input token
and fee rate in `[0, 1)`, `get_swap_quote` succeeds on any two positive
amounts `a1 < a2` with strictly larger price impact and strictly smaller
effective price at the larger amount. -/
theorem get_swap_quote_monotone (p : PoolReserves) (tok : String) (f a1 a2 : ℚ)
    (hA : 0 < p.reserve_token_a) (hB : 0 < p.reserve_token_b)
    (htok : tok = p.token_a_symbol ∨ tok = p.token_b_symbol)
    (hf0 : 0 ≤ f) (hf1 : f < 1) (h1 : 0 < a1) (h12 : a1 < a2) :
    ∃ q1 q2, get_swap_quote a1 p tok f = Except.ok q1 ∧
      get_swap_quote a2 p tok f = Except.ok q2 ∧
      q1.price_impact < q2.price_impact ∧
      q2.effective_price < q1.effective_price := by
  obtain ⟨r_in, r_out, hsel, hin, hout⟩ :
      ∃ r_in r_out, select_reserves p tok = Except.ok (r_in, r_out) ∧
        0 < r_in ∧ 0 < r_out := by
    by_cases hA' : tok = p.token_a_symbol
    · exact ⟨p.reserve_token_a, p.reserve_token_b,
        by simp only [select_reserves]; rw [if_pos hA'], hA, hB⟩
    · rcases htok with h | h
      · exact absurd h hA'
      · exact ⟨p.reserve_token_b, p.reserve_token_a,
          by simp only [select_reserves]; rw [if_neg hA', if_pos h], hB, hA⟩
  have h2 : 0 < a2 := h1.trans h12
  have hfe : (0:ℚ) < 1 - f := by linarith
  have hden1 : (0:ℚ) < r_in + a1 * (1 - f) := by nlinarith
  have hden2 : (0:ℚ) < r_in + a2 * (1 - f) := by nlinarith
  have hspot : (0:ℚ) < r_out / r_in := div_pos hout hin
  refine ⟨_, _, get_swap_quote_eq_ok a1 f p tok r_in r_out hsel h1 hin hout,
    get_swap_quote_eq_ok a2 f p tok r_in r_out hsel h2 hin hout, ?_, ?_⟩
  · show |a1 * (1 - f) * r_out / (r_in + a1 * (1 - f)) / a1 - r_out / r_in| /
        (r_out / r_in) * 100 <
      |a2 * (1 - f) * r_out / (r_in + a2 * (1 - f)) / a2 - r_out / r_in| /
        (r_out / r_in) * 100
    rw [eff_price_eq a1 r_in r_out f h1, eff_price_eq a2 r_in r_out f h2]
    have hlt1 := eff_price_lt_spot a1 r_in r_out f h1 hin hout hf0 hf1
    have hlt2 := eff_price_lt_spot a2 r_in r_out f h2 hin hout hf0 hf1
    rw [abs_sub_comm, abs_of_pos (by linarith),
      abs_sub_comm ((1 - f) * r_out / (r_in + a2 * (1 - f))), abs_of_pos (by linarith)]
    have hanti : (1 - f) * r_out / (r_in + a2 * (1 - f)) <
        (1 - f) * r_out / (r_in + a1 * (1 - f)) :=
      div_lt_div_of_pos_left (mul_pos hfe hout) hden1 (by nlinarith)
    exact mul_lt_mul_of_pos_right
      ((div_lt_div_iff_of_pos_right hspot).mpr (by linarith)) (by norm_num)
  · show a2 * (1 - f) * r_out / (r_in + a2 * (1 - f)) / a2 <
      a1 * (1 - f) * r_out / (r_in + a1 * (1 - f)) / a1
    rw [eff_price_eq a1 r_in r_out f h1, eff_price_eq a2 r_in r_out f h2]
    exact div_lt_div_of_pos_left (mul_pos hfe hout) hden1 (by nlinarith)

/-- C5 witness: the COSA/PIRATE pool (1000, 1000) with inputs 10 < 100. -/
theorem get_swap_quote_monotone_witness :
    (0:ℚ) < 10 ∧ (10:ℚ) < 100 ∧
    (∃ q1 q2,
      get_swap_quote 10 ⟨1000, 1000, "COSA", "PIRATE"⟩ "COSA" (3/1000) = Except.ok q1 ∧
      get_swap_quote 100 ⟨1000, 1000, "COSA", "PIRATE"⟩ "COSA" (3/1000) = Except.ok q2 ∧
      q1.price_impact < q2.price_impact ∧
      q2.effective_price < q1.effective_price) :=
  ⟨by norm_num, by norm_num,
    get_swap_quote_monotone ⟨1000, 1000, "COSA", "PIRATE"⟩ "COSA" (3/1000) 10 100
      (by norm_num) (by norm_num) (Or.inl rfl) (by norm_num) (by norm_num)
      (by norm_num) (by norm_num)⟩

/-- C10: for a valid pool (positive reserves) and a matching input token, a
non-positive input yields a successful quote with `amount_out = 0`,
`effective_price = 0`, `price_impact = 100` and
`fee_amount = amount_in * fee_rate`. -/
theorem get_swap_quote_nonpositive_input (a f : ℚ) (p : PoolReserves) (tok : String)
    (ha : a ≤ 0) (hA : 0 < p.reserve_token_a) (hB : 0 < p.reserve_token_b)
    (htok : tok = p.token_a_symbol ∨ tok = p.token_b_symbol) :
    get_swap_quote a p tok f = Except.ok ⟨a, 0, 0, 100, a * f⟩ := by
  obtain ⟨r_in, r_out, hsel, hin, hout⟩ :
      ∃ r_in r_out, select_reserves p tok = Except.ok (r_in, r_out) ∧
        0 < r_in ∧ 0 < r_out := by
    by_cases hA' : tok = p.token_a_symbol
    · exact ⟨p.reserve_token_a, p.reserve_token_b,
        by simp only [select_reserves]; rw [if_pos hA'], hA, hB⟩
    · rcases htok with h | h
      · exact absurd h hA'
      · exact ⟨p.reserve_token_b, p.reserve_token_a,
          by simp only [select_reserves]; rw [if_neg hA', if_pos h], hB, hA⟩
  have hspot : (0:ℚ) < r_out / r_in := div_pos hout hin
  simp only [get_swap_quote, hsel, output_eq_zero a r_in r_out f ha]
  simp [not_lt.mpr ha, hspot, zero_sub, abs_neg, abs_of_pos hspot, div_self hspot.ne']

/-- C10 witness: a zero input against the COSA/PIRATE pool (1000, 2000). -/
theorem get_swap_quote_nonpositive_input_witness :
    (0:ℚ) ≤ 0 ∧
    get_swap_quote 0 ⟨1000, 2000, "COSA", "PIRATE"⟩ "COSA" (3/1000) =
      Except.ok ⟨0, 0, 0, 100, 0 * (3/1000)⟩ :=
  ⟨le_refl 0,
    get_swap_quote_nonpositive_input 0 (3/1000) ⟨1000, 2000, "COSA", "PIRATE"⟩ "COSA"
      (by norm_num) (by norm_num) (by norm_num) (Or.inl rfl)⟩

/-- C3: the cycle simulation equals
`trade_amount_a * rate1 * (1-fee) * rate2 * (1-fee) * rate3 * (1-fee)`, the
profit ratio is `(final - start) / start`, the execute decision is taken
exactly when `profit_ratio >= min_profitability`, and in particular a
cycle exactly at the threshold executes. -/
theorem cycle_evaluation (a r1 r2 r3 f m : ℚ) (ha : 0 < a) :
    simulate_cycle a r1 r2 r3 f =
      a * r1 * (1 - f) * r2 * (1 - f) * r3 * (1 - f) ∧
    cycle_profit_ratio a r1 r2 r3 f =
      (simulate_cycle a r1 r2 r3 f - a) / a ∧
    (opportunity_found (cycle_profit_ratio a r1 r2 r3 f) m = true ↔
      m ≤ cycle_profit_ratio a r1 r2 r3 f) ∧
    (cycle_profit_ratio a r1 r2 r3 f = m →
      opportunity_found (cycle_profit_ratio a r1 r2 r3 f) m = true) := by
  refine ⟨by simp [simulate_cycle], rfl, by simp [opportunity_found], ?_⟩
  intro h
  simp [opportunity_found, h]

/-- C3 witness: a cycle whose profit ratio is exactly the 5% threshold
(rates 1.05, 1, 1, zero fee, start 100) takes the execute branch. -/
theorem cycle_evaluation_witness :
    (0:ℚ) < 100 ∧
    cycle_profit_ratio 100 (21/20) 1 1 0 = 1/20 ∧
    opportunity_found (cycle_profit_ratio 100 (21/20) 1 1 0) (1/20) = true :=
  ⟨by norm_num,
    by norm_num [cycle_profit_ratio, simulate_cycle],
    (cycle_evaluation 100 (21/20) 1 1 0 (1/20) (by norm_num)).2.2.2
      (by norm_num [cycle_profit_ratio, simulate_cycle])⟩

/-- C7 counterexample: `ROUND_UP` rounds away from zero, not towards
`+∞`, so for the negative quantity `-1/2` with step `1` the result is `-1`,
which is NOT `>= q` — the claim's "always returns a value >= q" fails. -/
theorem round_up_to_step_counterexample :
    round_up_to_step (-1/2) 1 = -1 ∧ ¬ ((-1/2 : ℚ) ≤ round_up_to_step (-1/2) 1) := by
  have hfloor : ⌊(-1/2 : ℚ)⌋ = -1 := by
    rw [Int.floor_eq_iff]
    norm_num
  have h : round_up_to_step (-1/2) 1 = -1 := by
    rw [round_up_to_step, if_neg (by norm_num), to_integral_round_up,
      if_neg (by norm_num)]
    norm_num [hfloor]
  refine ⟨h, ?_⟩
  rw [h]
  norm_num

/-- C7 amended: `round_up_to_step(q, step)` returns `q` unchanged when
`step <= 0`; when `step > 0` it returns an integer multiple of `step`, and
that multiple is `>= q` whenever `q >= 0` (for negative quantities the
away-from-zero rounding can return a value below `q`). -/
theorem round_up_to_step_spec (q step : ℚ) :
    (step ≤ 0 → round_up_to_step q step = q) ∧
    (0 < step →
      (∃ n : ℤ, round_up_to_step q step = n * step) ∧
      (0 ≤ q → q ≤ round_up_to_step q step)) := by
  constructor
  · intro hs
    rw [round_up_to_step, if_pos hs]
  · intro hs
    have hs' : ¬ step ≤ 0 := not_le.mpr hs
    constructor
    · exact ⟨to_integral_round_up (q / step), by rw [round_up_to_step, if_neg hs']⟩
    · intro hq
      have hdiv : 0 ≤ q / step := div_nonneg hq hs.le
      rw [round_up_to_step, if_neg hs', to_integral_round_up, if_pos hdiv]
      calc q = q / step * step := (div_mul_cancel₀ q hs.ne').symm
        _ ≤ (⌈q / step⌉ : ℚ) * step :=
          mul_le_mul_of_nonneg_right (Int.le_ceil _) hs.le

/-- C7 amended witness: quantity 7/10 with step 1/4 rounds up to the
multiple 3/4 ≥ 7/10. -/
theorem round_up_to_step_spec_witness :
    (0:ℚ) < 1/4 ∧
    (∃ n : ℤ, round_up_to_step (7/10) (1/4) = n * (1/4)) ∧
    ((7/10 : ℚ) ≤ round_up_to_step (7/10) (1/4)) :=
  ⟨by norm_num,
    ((round_up_to_step_spec (7/10) (1/4)).2 (by norm_num)).1,
    ((round_up_to_step_spec (7/10) (1/4)).2 (by norm_num)).2 (by norm_num)⟩

/-- C9: at the scenario prices ETH/USDT=100, ETH/BTC=0.1, BTC/USDT=1200
with start 100, zero fee and threshold 0.05, the profit ratio clears the
threshold, so the profitable branch is reached — but the code's behavior
there is to block on an interactive `input()` confirmation before
executing, contradicting the claim (and the repository's own test, which
calls a function `evaluate_profitability_and_execute` that does not exist
in `run_cosa_arb.py` and asserts `input()` is never called). -/
theorem runner_prompts_at_scenario :
    (1/20 : ℚ) ≤ cycle_profit_ratio 100
      (calculate_conversion_rates 100 (1/10) 1200).1
      (calculate_conversion_rates 100 (1/10) 1200).2.1
      (calculate_conversion_rates 100 (1/10) 1200).2.2 0 ∧
    runner_decision (cycle_profit_ratio 100
      (calculate_conversion_rates 100 (1/10) 1200).1
      (calculate_conversion_rates 100 (1/10) 1200).2.1
      (calculate_conversion_rates 100 (1/10) 1200).2.2 0) (1/20) =
      RunnerAction.promptConfirm := by
  constructor
  · norm_num [cycle_profit_ratio, simulate_cycle, calculate_conversion_rates]
  · rw [runner_decision, if_pos]
    norm_num [cycle_profit_ratio, simulate_cycle, calculate_conversion_rates]
